import Mathlib

/-!
# rss-reader: a shallow embedding of the ingestion pipeline

The Go program polls Atom/RSS feeds, turns their entries into posts and stores
the first post of every successful poll.  This file embeds

* `generatePostUID` (main.go), together with the decimal formatting and parsing
  of `strconv` / `fmt` that it and `getPaginationParams` rely on,
* `getAtomPosts` (atom.go) and `getRSSPosts` (rss.go),
* `fetchFeed`, `updateFeedLastChecked`, the body of the `fetchPosts` loop and
  `getPaginationParams` with the `GET /posts` handler (main.go),

and proves properties of them.  Go strings are Lean strings, Go `int`/`int64`
are integers with the 64-bit range made explicit where it matters, and every
call that leaves the process (HTTP, XML decoding, date parsing, the clock, the
database driver) is an explicit input of the embedded function.
-/

namespace RssReader

/-! ## Decimal formatting and parsing (`fmt` `%d`, `strconv.Itoa`, `strconv.Atoi`) -/

/-- The ASCII digit for `d < 10`: the byte `d + '0'`. -/
def digitChar (d : Nat) : Char := Char.ofNat (48 + d)

/-- The loop of `strconv.formatBits` in base 10: the digits of `u`, most significant first,
with a single `0` for zero. -/
def formatBits (u : Nat) : List Char :=
  if u < 10 then [digitChar u] else formatBits (u / 10) ++ [digitChar (u % 10)]
decreasing_by omega

/-- The function `strconv.FormatInt(i, 10)`, which is what `%d` and `strconv.Itoa` print:
a minus sign for a negative number, then the digits of the magnitude. -/
def formatInt (i : Int) : String :=
  if i < 0 then String.mk ('-' :: formatBits i.natAbs) else String.mk (formatBits i.natAbs)

/-- The digit loop of `strconv.Atoi`: `n = n*10 + (ch - '0')`, failing on the first byte
that is not an ASCII digit. -/
def parseDigits : List Char → Nat → Option Nat
  | [], n => some n
  | ch :: rest, n =>
    if 48 ≤ ch.toNat ∧ ch.toNat ≤ 57 then parseDigits rest (n * 10 + (ch.toNat - 48)) else none

/-- The syntax accepted by `strconv.Atoi`: an optional sign followed by at least one decimal
digit; the value is not yet range checked. -/
def parseSigned (s : List Char) : Option Int :=
  match s with
  | [] => none
  | '-' :: rest => if rest.length < 1 then none else (parseDigits rest 0).map (fun (n : Nat) => -(n : Int))
  | '+' :: rest => if rest.length < 1 then none else (parseDigits rest 0).map (fun (n : Nat) => (n : Int))
  | s => (parseDigits s 0).map (fun (n : Nat) => (n : Int))

/-- Smallest value of a 64-bit Go `int`. -/
def minInt64 : Int := -9223372036854775808

/-- Largest value of a 64-bit Go `int`. -/
def maxInt64 : Int := 9223372036854775807

/-- The two failures of `strconv.Atoi`. -/
inductive NumError where
  | ErrSyntax
  | ErrRange
deriving DecidableEq, Repr

/-- The function `strconv.Atoi` on a 64-bit platform. -/
def Atoi (s : String) : Except NumError Int :=
  match parseSigned s.data with
  | none => .error .ErrSyntax
  | some n => if n < minInt64 ∨ maxInt64 < n then .error .ErrRange else .ok n

/-- The function `strconv.Itoa`. -/
def Itoa (i : Int) : String := formatInt i

/-! ## Post identity (main.go) -/

/-- The function `generatePostUID`: `fmt.Sprintf("%d,%s", feedId, postId)`. -/
def generatePostUID (feedId : Int) (postId : String) : String :=
  formatInt feedId ++ "," ++ postId

/-! ## Time (time.go and the parts of package `time` the program calls) -/

/-- A `time.Time` as the program uses it: an instant, in nanoseconds since the Unix epoch. -/
structure Time where
  unixNano : Int
deriving DecidableEq, Repr

/-- Smallest `time.Duration` (an `int64` count of nanoseconds). -/
def minDuration : Int := -9223372036854775808

/-- Largest `time.Duration`. -/
def maxDuration : Int := 9223372036854775807

/-- The constant `time.Minute`, in nanoseconds. -/
def Minute : Int := 60 * 1000000000

/-- The method `Time.Sub`: the difference `t - u` as a `Duration`, replaced by the largest
or smallest `Duration` when the difference does not fit in an `int64`. -/
def Time.Sub (t u : Time) : Int :=
  let d := t.unixNano - u.unixNano
  if d < minDuration then minDuration else if maxDuration < d then maxDuration else d

/-- The method `Time.UTC`: the same instant. -/
def Time.UTC (t : Time) : Time := t

/-- The type `SQLTime` of time.go: a struct embedding `time.Time`. -/
structure SQLTime where
  Time : Time
deriving DecidableEq, Repr

/-! ## Data model (main.go, atom.go, rss.go) -/

/-- The struct `NewPost`. -/
structure NewPost where
  Title : String
  URL : String
  FeedID : Int
  UID : String
  Date : SQLTime
deriving DecidableEq, Repr

/-- The struct `Feed`. -/
structure Feed where
  ID : Int
  URL : String
  LastChecked : Option SQLTime
  CreatedAt : SQLTime
deriving DecidableEq, Repr

/-- The struct `URLFeed`, reduced to the one field that is read: `XMLName.Local`. -/
structure URLFeed where
  Local : String
deriving DecidableEq, Repr

/-- One element of `AtomFeed.Entries`; `Href` is `Link.Href`. -/
structure AtomEntry where
  ID : String
  Href : String
  Published : String
  Title : String
deriving DecidableEq, Repr

/-- The struct `AtomFeed`. -/
structure AtomFeed where
  ID : String
  Entries : List AtomEntry
deriving DecidableEq, Repr

/-- One element of `RSSFeed.Channel.Items`. -/
structure RSSItem where
  Title : String
  Link : String
  PubDate : String
  GUID : String
deriving DecidableEq, Repr

/-- The struct `RSSFeed`; `Items` is `Channel.Items`. -/
structure RSSFeed where
  Items : List RSSItem
deriving DecidableEq, Repr

/-- The errors `fetchFeed` can return.  `ErrRequestTimeout` is the package variable of that
name; the others are the errors of the library calls and of the two `fmt.Errorf`. -/
inductive FetchError where
  | ErrRequestTimeout
  | transport (msg : String)
  | status (code : Int)
  | bodyRead (msg : String)
  | xmlDecode (msg : String)
  | unsupportedFormat (root : String)
deriving DecidableEq, Repr

/-- The library functions the parsers call: `xml.Decoder.Decode` at the three struct types,
`time.Parse` at the two layouts and `Time.Format(time.DateTime)`. -/
structure Lib where
  decodeURLFeed : List UInt8 → Except String URLFeed
  decodeAtom : List UInt8 → Except String AtomFeed
  decodeRSS : List UInt8 → Except String RSSFeed
  parseRFC3339 : String → Option Time
  parseRFC1123 : String → Option Time
  formatDateTime : Time → String

/-- The method `SQLTime.FormatToDB`. -/
def SQLTime.FormatToDB (lib : Lib) (st : SQLTime) : String :=
  lib.formatDateTime st.Time

/-! ## Parsers (atom.go, rss.go) -/

/-- The body of the `for` loop of `getAtomPosts` for one entry: the slice `posts` after the
iteration.  An entry whose date does not parse is logged and skipped (`continue`); the log
line is not part of the result. -/
def atomLoopBody (lib : Lib) (feed : Feed) (posts : List NewPost) (entry : AtomEntry) :
    List NewPost :=
  match lib.parseRFC3339 entry.Published with
  | none => posts
  | some date =>
    let post : NewPost :=
      { Title := entry.Title
        URL := entry.Href
        Date := ⟨date⟩
        FeedID := feed.ID
        UID := generatePostUID feed.ID entry.ID }
    posts ++ [post]

/-- The function `getAtomPosts`. -/
def getAtomPosts (lib : Lib) (body : List UInt8) (feed : Feed) :
    Except FetchError (List NewPost) :=
  match lib.decodeAtom body with
  | .error e => .error (.xmlDecode e)
  | .ok atomFeed => .ok (atomFeed.Entries.foldl (atomLoopBody lib feed) [])

/-- The body of the `for` loop of `getRSSPosts` for one item. -/
def rssLoopBody (lib : Lib) (feed : Feed) (posts : List NewPost) (item : RSSItem) :
    List NewPost :=
  match lib.parseRFC1123 item.PubDate with
  | none => posts
  | some date =>
    let post : NewPost :=
      { Title := item.Title
        URL := item.Link
        FeedID := feed.ID
        UID := generatePostUID feed.ID item.GUID
        Date := ⟨date⟩ }
    posts ++ [post]

/-- The function `getRSSPosts`. -/
def getRSSPosts (lib : Lib) (body : List UInt8) (feed : Feed) :
    Except FetchError (List NewPost) :=
  match lib.decodeRSS body with
  | .error e => .error (.xmlDecode e)
  | .ok rssFeed => .ok (rssFeed.Items.foldl (rssLoopBody lib feed) [])

/-! ## Fetching (main.go) -/

/-- What `c.Get(feed.URL)` followed by `io.ReadAll(resp.Body)` can give: a transport error,
or a response with a status code whose body either fails to read or is a byte slice. -/
inductive HttpOutcome where
  | transportError (msg : String)
  | response (statusCode : Int) (body : Except String (List UInt8))

/-- The function `fetchFeed`, with the outcome of the GET for every URL as an input. -/
def fetchFeed (lib : Lib) (get : String → HttpOutcome) (feed : Feed) :
    Except FetchError (List NewPost) :=
  match get feed.URL with
  | .transportError msg => .error (.transport msg)
  | .response statusCode body =>
    if statusCode < 200 ∨ statusCode > 299 then
      if statusCode = 429 then .error .ErrRequestTimeout
      else .error (.status statusCode)
    else
      match body with
      | .error msg => .error (.bodyRead msg)
      | .ok data =>
        match lib.decodeURLFeed data with
        | .error msg => .error (.xmlDecode msg)
        | .ok urlFeed =>
          if urlFeed.Local = "feed" then getAtomPosts lib data feed
          else if urlFeed.Local = "rss" then getRSSPosts lib data feed
          else .error (.unsupportedFormat urlFeed.Local)

/-! ## The store and the scheduler loop (main.go) -/

/-- A row of table `feeds`, with the columns the scheduler reads or writes. -/
structure FeedRow where
  id : Int
  url : String
  last_checked : Option String
deriving DecidableEq, Repr

/-- A row of table `posts`, with the columns the `INSERT` statement of `fetchPosts` sets. -/
structure PostRow where
  title : String
  url : String
  feed_id : Int
  date : String
  uid : String
deriving DecidableEq, Repr

/-- The database as the scheduler sees it. -/
structure DB where
  feeds : List FeedRow
  posts : List PostRow
deriving DecidableEq, Repr

/-- The statement `UPDATE feeds SET last_checked = ? WHERE id = ?`. -/
def DB.execUpdate (db : DB) (formattedDate : String) (id : Int) : DB :=
  { db with
    feeds := db.feeds.map
      (fun row => if row.id = id then { row with last_checked := some formattedDate } else row) }

/-- The statement `INSERT INTO posts (title, url, feed_id, date, uid) VALUES (?, ?, ?, ?, ?)`. -/
def DB.execInsert (db : DB) (row : PostRow) : DB :=
  { db with posts := db.posts ++ [row] }

/-- What one evaluation of a feed does to the outside, in program order. -/
inductive Event where
  | sleep (d : Int)
  | httpGet (url : String)
  | logFetchError (url : String) (err : FetchError)
  | execUpdate (formattedDate : String) (id : Int)
  | execInsert (row : PostRow)
  | logSaveError
  | printSaved
deriving DecidableEq, Repr

/-- What the outside gives to one evaluation of a feed: the clock read in the loop, the
outcome of the GET, the clock read in `updateFeedLastChecked`, and whether the two `db.Exec`
calls return an error. -/
structure World where
  now : Time
  get : String → HttpOutcome
  nowUpdate : Time
  updateFails : Bool
  insertFails : Bool

/-- The events and the database after a piece of the loop. -/
structure StepResult where
  events : List Event
  db : DB
deriving DecidableEq, Repr

/-- The function `updateFeedLastChecked`: the `Exec` it issues, the database after it and
whether it returned an error. -/
def updateFeedLastChecked (lib : Lib) (w : World) (db : DB) (feed : Feed) :
    Event × DB × Bool :=
  let formattedDate := lib.formatDateTime w.nowUpdate.UTC
  if w.updateFails then (.execUpdate formattedDate feed.ID, db, true)
  else (.execUpdate formattedDate feed.ID, db.execUpdate formattedDate feed.ID, false)

/-- The test at the top of the loop body of `fetchPosts`: the feed has a checkpoint and
`time.Now().UTC().Sub(feed.LastChecked.Time) < time.Minute*15`, so the body `continue`s. -/
def notDue (now : Time) (feed : Feed) : Bool :=
  match feed.LastChecked with
  | none => false
  | some lastChecked =>
    let timeDiff := now.UTC.Sub lastChecked.Time
    decide (timeDiff < Minute * 15)

/-- The body of the inner `for _, feed := range feeds` loop of `fetchPosts`, for one feed. -/
def evalFeed (lib : Lib) (w : World) (db : DB) (feed : Feed) : StepResult :=
  if notDue w.now feed then ⟨[], db⟩
  else
    let pre : List Event := [.sleep (1 * Minute), .httpGet feed.URL]
    match fetchFeed lib w.get feed with
    | .error err =>
      if err = .ErrRequestTimeout then
        ⟨pre ++ [.logFetchError feed.URL err, .sleep (1 * Minute)], db⟩
      else
        let (ev, db1, _) := updateFeedLastChecked lib w db feed
        ⟨pre ++ [.logFetchError feed.URL err, ev], db1⟩
    | .ok [] => ⟨pre, db⟩
    | .ok (newestPost :: _) =>
      let (ev, db1, _) := updateFeedLastChecked lib w db feed
      let row : PostRow :=
        { title := newestPost.Title
          url := newestPost.URL
          feed_id := newestPost.FeedID
          date := newestPost.Date.FormatToDB lib
          uid := newestPost.UID }
      if w.insertFails then ⟨pre ++ [ev, .execInsert row, .logSaveError], db1⟩
      else ⟨pre ++ [ev, .execInsert row, .printSaved], db1.execInsert row⟩

/-- The inner loop of `fetchPosts` over the loaded feed list; `world i` is what the outside
gives to the evaluation of the feed at position `i`. -/
def rangeFeeds (lib : Lib) (world : Nat → World) : Nat → List Feed → DB → StepResult
  | _, [], db => ⟨[], db⟩
  | i, feed :: rest, db =>
    let r := evalFeed lib (world i) db feed
    let r2 := rangeFeeds lib world (i + 1) rest r.db
    ⟨r.events ++ r2.events, r2.db⟩

/-! ## Pagination and the `GET /posts` handler (main.go) -/

/-- The method `url.Values.Get`: the first value of the key, or the empty string. -/
def queryGet (q : List (String × List String)) (key : String) : String :=
  match q.lookup key with
  | none => ""
  | some [] => ""
  | some (v :: _) => v

/-- Arithmetic of a 64-bit Go `int`: the result wraps around. -/
def wrapInt64 (x : Int) : Int := (x + 9223372036854775808) % 18446744073709551616 - 9223372036854775808

/-- The function `getPaginationParams`: limit, offset and error. -/
def getPaginationParams (q : List (String × List String)) (defaultLimit : Int) :
    Int × Int × Option NumError :=
  let limit := queryGet q "limit"
  let page := queryGet q "page"
  let limit := if limit = "" then Itoa defaultLimit else limit
  let page := if page = "" then "1" else page
  match Atoi limit with
  | .error err => (-1, -1, some err)
  | .ok l =>
    match Atoi page with
    | .error err => (-1, -1, some err)
    | .ok p =>
      let offset := wrapInt64 (wrapInt64 (p - 1) * l)
      (l, offset, none)

/-- What the `GET /posts` handler writes: `http.Error` with a status code, or the posts as
JSON with status 200. -/
inductive Response where
  | httpError (code : Nat)
  | json (posts : List PostRow)
deriving DecidableEq, Repr

/-- The status code of a response. -/
def Response.statusCode : Response → Nat
  | .httpError code => code
  | .json _ => 200

/-- The handler of `GET /posts`; `getPosts limit offset` is the outcome of the query and
`sendJSON` is taken to encode the posts without error.  The result is the response and the
list of queries made. -/
def handleGetPosts (q : List (String × List String))
    (getPosts : Int → Int → Except String (List PostRow)) : Response × List (Int × Int) :=
  match getPaginationParams q 10 with
  | (_, _, some _) => (.httpError 500, [])
  | (limit, offset, none) =>
    match getPosts limit offset with
    | .error _ => (.httpError 500, [(limit, offset)])
    | .ok posts => (.json posts, [(limit, offset)])

/-! ## Reference functions for the parsers -/

/-- The post an Atom entry stands for, when its `published` date parses as RFC 3339. -/
def atomEntryPost (lib : Lib) (feed : Feed) (entry : AtomEntry) : Option NewPost :=
  (lib.parseRFC3339 entry.Published).map fun date =>
    { Title := entry.Title
      URL := entry.Href
      FeedID := feed.ID
      UID := generatePostUID feed.ID entry.ID
      Date := ⟨date⟩ }

/-- The post an RSS item stands for, when its `pubDate` parses as RFC 1123. -/
def rssItemPost (lib : Lib) (feed : Feed) (item : RSSItem) : Option NewPost :=
  (lib.parseRFC1123 item.PubDate).map fun date =>
    { Title := item.Title
      URL := item.Link
      FeedID := feed.ID
      UID := generatePostUID feed.ID item.GUID
      Date := ⟨date⟩ }

/-- An Atom entry and an RSS item with the same content: same title, same link, same native
identifier, and publication dates that both parse, to the same time. -/
def SameContent (lib : Lib) (entry : AtomEntry) (item : RSSItem) : Prop :=
  entry.Title = item.Title ∧ entry.Href = item.Link ∧ entry.ID = item.GUID ∧
    ∃ t, lib.parseRFC3339 entry.Published = some t ∧ lib.parseRFC1123 item.PubDate = some t

/-- The ways a fetch can fail other than by a response with status 429: a transport error,
another status outside 200..299, a body that cannot be read, a document that does not decode
(at the root or in the Atom or RSS decoder), or a root element that is neither `feed` nor
`rss`. -/
inductive FailsOtherThan429 (lib : Lib) : HttpOutcome → Prop where
  | transport (msg : String) : FailsOtherThan429 lib (.transportError msg)
  | status (code : Int) (body : Except String (List UInt8)) :
      (code < 200 ∨ code > 299) → code ≠ 429 → FailsOtherThan429 lib (.response code body)
  | bodyRead (code : Int) (msg : String) :
      200 ≤ code → code ≤ 299 → FailsOtherThan429 lib (.response code (.error msg))
  | decodeRoot (code : Int) (data : List UInt8) (msg : String) :
      200 ≤ code → code ≤ 299 → lib.decodeURLFeed data = .error msg →
      FailsOtherThan429 lib (.response code (.ok data))
  | decodeAtom (code : Int) (data : List UInt8) (msg : String) :
      200 ≤ code → code ≤ 299 → lib.decodeURLFeed data = .ok ⟨"feed"⟩ →
      lib.decodeAtom data = .error msg → FailsOtherThan429 lib (.response code (.ok data))
  | decodeRSS (code : Int) (data : List UInt8) (msg : String) :
      200 ≤ code → code ≤ 299 → lib.decodeURLFeed data = .ok ⟨"rss"⟩ →
      lib.decodeRSS data = .error msg → FailsOtherThan429 lib (.response code (.ok data))
  | unsupported (code : Int) (data : List UInt8) (root : String) :
      200 ≤ code → code ≤ 299 → lib.decodeURLFeed data = .ok ⟨root⟩ →
      root ≠ "feed" → root ≠ "rss" → FailsOtherThan429 lib (.response code (.ok data))

/-! ## Sample documents and a sample outside world -/

/-- The bytes of an Atom document with two entries, dated 2024-01-02T10:00:00Z and
2024-01-01T10:00:00Z in that order. -/
def sampleAtomBody : List UInt8 :=
  [60, 102, 101, 101, 100, 62, 60, 101, 110, 116, 114, 121, 62, 60, 105, 100, 62, 97, 50, 60,
   47, 105, 100, 62, 60, 108, 105, 110, 107, 32, 104, 114, 101, 102, 61, 34, 104, 116, 116,
   112, 115, 58, 47, 47, 97, 46, 101, 120, 97, 109, 112, 108, 101, 47, 50, 34, 47, 62, 60, 112,
   117, 98, 108, 105, 115, 104, 101, 100, 62, 50, 48, 50, 52, 45, 48, 49, 45, 48, 50, 84, 49,
   48, 58, 48, 48, 58, 48, 48, 90, 60, 47, 112, 117, 98, 108, 105, 115, 104, 101, 100, 62, 60,
   116, 105, 116, 108, 101, 62, 83, 101, 99, 111, 110, 100, 60, 47, 116, 105, 116, 108, 101,
   62, 60, 47, 101, 110, 116, 114, 121, 62, 60, 101, 110, 116, 114, 121, 62, 60, 105, 100, 62,
   97, 49, 60, 47, 105, 100, 62, 60, 108, 105, 110, 107, 32, 104, 114, 101, 102, 61, 34, 104,
   116, 116, 112, 115, 58, 47, 47, 97, 46, 101, 120, 97, 109, 112, 108, 101, 47, 49, 34, 47,
   62, 60, 112, 117, 98, 108, 105, 115, 104, 101, 100, 62, 50, 48, 50, 52, 45, 48, 49, 45, 48,
   49, 84, 49, 48, 58, 48, 48, 58, 48, 48, 90, 60, 47, 112, 117, 98, 108, 105, 115, 104, 101,
   100, 62, 60, 116, 105, 116, 108, 101, 62, 70, 105, 114, 115, 116, 60, 47, 116, 105, 116,
   108, 101, 62, 60, 47, 101, 110, 116, 114, 121, 62, 60, 47, 102, 101, 101, 100, 62]

/-- The bytes of `<rss><channel></channel></rss>`: an RSS document with zero items. -/
def sampleRSSBody : List UInt8 :=
  [60, 114, 115, 115, 62, 60, 99, 104, 97, 110, 110, 101, 108, 62, 60, 47, 99, 104, 97, 110,
   110, 101, 108, 62, 60, 47, 114, 115, 115, 62]

/-- The bytes of an RSS document with two items that have the titles, links, guids and dates
of the two entries of the Atom sample. -/
def sampleRSSItemsBody : List UInt8 :=
  [60, 114, 115, 115, 62, 60, 99, 104, 97, 110, 110, 101, 108, 62, 60, 105, 116, 101, 109, 62,
   60, 116, 105, 116, 108, 101, 62, 83, 101, 99, 111, 110, 100, 60, 47, 116, 105, 116, 108,
   101, 62, 60, 108, 105, 110, 107, 62, 104, 116, 116, 112, 115, 58, 47, 47, 97, 46, 101, 120,
   97, 109, 112, 108, 101, 47, 50, 60, 47, 108, 105, 110, 107, 62, 60, 112, 117, 98, 68, 97,
   116, 101, 62, 84, 117, 101, 44, 32, 48, 50, 32, 74, 97, 110, 32, 50, 48, 50, 52, 32, 49, 48,
   58, 48, 48, 58, 48, 48, 32, 85, 84, 67, 60, 47, 112, 117, 98, 68, 97, 116, 101, 62, 60, 103,
   117, 105, 100, 62, 97, 50, 60, 47, 103, 117, 105, 100, 62, 60, 47, 105, 116, 101, 109, 62,
   60, 105, 116, 101, 109, 62, 60, 116, 105, 116, 108, 101, 62, 70, 105, 114, 115, 116, 60, 47,
   116, 105, 116, 108, 101, 62, 60, 108, 105, 110, 107, 62, 104, 116, 116, 112, 115, 58, 47,
   47, 97, 46, 101, 120, 97, 109, 112, 108, 101, 47, 49, 60, 47, 108, 105, 110, 107, 62, 60,
   112, 117, 98, 68, 97, 116, 101, 62, 77, 111, 110, 44, 32, 48, 49, 32, 74, 97, 110, 32, 50,
   48, 50, 52, 32, 49, 48, 58, 48, 48, 58, 48, 48, 32, 85, 84, 67, 60, 47, 112, 117, 98, 68,
   97, 116, 101, 62, 60, 103, 117, 105, 100, 62, 97, 49, 60, 47, 103, 117, 105, 100, 62, 60,
   47, 105, 116, 101, 109, 62, 60, 47, 99, 104, 97, 110, 110, 101, 108, 62, 60, 47, 114, 115,
   115, 62]

/-- The bytes of `<foo></foo>`. -/
def sampleFooBody : List UInt8 :=
  [60, 102, 111, 111, 62, 60, 47, 102, 111, 111, 62]

/-- The instant 2024-01-02T10:00:00Z. -/
def jan2 : Time := ⟨1704189600000000000⟩

/-- The instant 2024-01-01T10:00:00Z. -/
def jan1 : Time := ⟨1704103200000000000⟩

/-- The library restricted to the sample documents and their dates. -/
def sampleLib : Lib where
  decodeURLFeed data :=
    if data = sampleAtomBody then .ok ⟨"feed"⟩
    else if data = sampleRSSBody then .ok ⟨"rss"⟩
    else if data = sampleRSSItemsBody then .ok ⟨"rss"⟩
    else if data = sampleFooBody then .ok ⟨"foo"⟩
    else .error "EOF"
  decodeAtom data :=
    if data = sampleAtomBody then
      .ok
        { ID := ""
          Entries :=
            [ { ID := "a2", Href := "https://a.example/2", Published := "2024-01-02T10:00:00Z",
                Title := "Second" },
              { ID := "a1", Href := "https://a.example/1", Published := "2024-01-01T10:00:00Z",
                Title := "First" } ] }
    else .error "EOF"
  decodeRSS data :=
    if data = sampleRSSItemsBody then
      .ok
        { Items :=
            [ { Title := "Second", Link := "https://a.example/2",
                PubDate := "Tue, 02 Jan 2024 10:00:00 UTC", GUID := "a2" },
              { Title := "First", Link := "https://a.example/1",
                PubDate := "Mon, 01 Jan 2024 10:00:00 UTC", GUID := "a1" } ] }
    else if data = sampleRSSBody then .ok ⟨[]⟩
    else .error "EOF"
  parseRFC3339 s :=
    if s = "2024-01-02T10:00:00Z" then some jan2
    else if s = "2024-01-01T10:00:00Z" then some jan1
    else none
  parseRFC1123 s :=
    if s = "Tue, 02 Jan 2024 10:00:00 UTC" then some jan2
    else if s = "Mon, 01 Jan 2024 10:00:00 UTC" then some jan1
    else none
  formatDateTime t :=
    if t = jan2 then "2024-01-02 10:00:00"
    else if t = jan1 then "2024-01-01 10:00:00"
    else "2024-01-02 10:20:00"

/-- The outcome of a GET in the sample world, by URL. -/
def sampleGet (url : String) : HttpOutcome :=
  if url = "https://a.example/atom" then .response 200 (.ok sampleAtomBody)
  else if url = "https://a.example/rss" then .response 200 (.ok sampleRSSBody)
  else if url = "https://a.example/foo" then .response 200 (.ok sampleFooBody)
  else if url = "https://a.example/busy" then .response 429 (.ok [])
  else .transportError "no such host"

/-- The sample world: both clocks read 2024-01-02T10:20:00Z and no `Exec` fails. -/
def sampleWorld : World where
  now := ⟨1704190800000000000⟩
  get := sampleGet
  nowUpdate := ⟨1704190800000000000⟩
  updateFails := false
  insertFails := false

/-- A feed with the given id and URL that was never checked. -/
def sampleFeed (id : Int) (url : String) : Feed where
  ID := id
  URL := url
  LastChecked := none
  CreatedAt := ⟨jan1⟩

/-- A database with the four sample feeds, none checked, and no posts. -/
def sampleDB : DB where
  feeds :=
    [ ⟨1, "https://a.example/atom", none⟩, ⟨2, "https://a.example/rss", none⟩,
      ⟨3, "https://a.example/foo", none⟩, ⟨4, "https://a.example/busy", none⟩ ]
  posts := []

/-- The Atom sample feed, checked five minutes before the clock of the sample world. -/
def recentFeed : Feed where
  ID := 1
  URL := "https://a.example/atom"
  LastChecked := some ⟨⟨1704190500000000000⟩⟩
  CreatedAt := ⟨jan1⟩

/-! ## Lemmas on decimal formatting and parsing -/

theorem digitChar_toNat (d : Nat) (h : d < 10) : (digitChar d).toNat = 48 + d := by
  interval_cases d <;> rfl

theorem formatBits_ne_nil (u : Nat) : formatBits u ≠ [] := by
  rw [formatBits]
  split <;> simp

theorem formatBits_digit (u : Nat) :
    ∀ c ∈ formatBits u, 48 ≤ c.toNat ∧ c.toNat ≤ 57 := by
  induction u using Nat.strong_induction_on with
  | _ u ih =>
    intro c hc
    rw [formatBits] at hc
    split at hc
    · simp only [List.mem_singleton] at hc
      subst hc
      rw [digitChar_toNat u (by omega)]
      omega
    · rcases List.mem_append.mp hc with h | h
      · exact ih (u / 10) (by omega) c h
      · simp only [List.mem_singleton] at h
        subst h
        rw [digitChar_toNat (u % 10) (by omega)]
        omega

theorem parseDigits_append (xs ys : List Char) (n : Nat) :
    parseDigits (xs ++ ys) n = (parseDigits xs n).bind (parseDigits ys) := by
  induction xs generalizing n with
  | nil => simp [parseDigits]
  | cons c cs ih =>
    simp only [List.cons_append, parseDigits]
    split
    · exact ih _
    · rfl

theorem parseDigits_formatBits (u : Nat) : parseDigits (formatBits u) 0 = some u := by
  induction u using Nat.strong_induction_on with
  | _ u ih =>
    rw [formatBits]
    split
    · have h := digitChar_toNat u (by omega)
      simp only [parseDigits, h]
      rw [if_pos (by omega)]
      simp
    · have h := digitChar_toNat (u % 10) (by omega)
      rw [parseDigits_append, ih (u / 10) (by omega)]
      simp only [Option.some_bind, parseDigits, h]
      rw [if_pos (by omega)]
      congr 1
      omega

theorem formatBits_head (u : Nat) :
    ∃ c rest, formatBits u = c :: rest ∧ c ≠ '-' ∧ c ≠ '+' := by
  cases hfb : formatBits u with
  | nil => exact absurd hfb (formatBits_ne_nil u)
  | cons c rest =>
    refine ⟨c, rest, rfl, ?_, ?_⟩
    · intro hc
      have := formatBits_digit u c (by rw [hfb]; simp)
      subst hc
      revert this
      decide
    · intro hc
      have := formatBits_digit u c (by rw [hfb]; simp)
      subst hc
      revert this
      decide

theorem parseSigned_formatBits (u : Nat) : parseSigned (formatBits u) = some (u : Int) := by
  obtain ⟨c, rest, hfb, hm, hp⟩ := formatBits_head u
  have h := parseDigits_formatBits u
  rw [hfb] at h ⊢
  unfold parseSigned
  split
  · simp_all
  · simp_all
  · simp_all
  · simp [h]

theorem parseSigned_formatInt (i : Int) : parseSigned (formatInt i).data = some i := by
  unfold formatInt
  split
  · rename_i hneg
    have hlen : ¬ (formatBits i.natAbs).length < 1 := by
      have := formatBits_ne_nil i.natAbs
      cases hfb : formatBits i.natAbs with
      | nil => exact absurd hfb this
      | cons c rest => simp
    simp only [parseSigned, if_neg hlen, parseDigits_formatBits, Option.map_some']
    congr 1
    omega
  · rename_i hnn
    simp only [parseSigned_formatBits]
    congr 1
    omega

theorem formatInt_injective (i j : Int) (h : formatInt i = formatInt j) : i = j := by
  have hi := parseSigned_formatInt i
  rw [h, parseSigned_formatInt j] at hi
  exact (Option.some.inj hi).symm

theorem formatInt_no_comma (i : Int) : ',' ∉ (formatInt i).data := by
  have hd : ∀ u, ',' ∉ formatBits u := by
    intro u hmem
    have := formatBits_digit u ',' hmem
    revert this
    decide
  unfold formatInt
  split
  · simp only [List.mem_cons, not_or]
    exact ⟨by decide, hd _⟩
  · exact hd _

theorem split_at_first_comma (xs ys p q : List Char) (hx : ',' ∉ xs) (hy : ',' ∉ ys)
    (h : xs ++ ',' :: p = ys ++ ',' :: q) : xs = ys ∧ p = q := by
  induction xs generalizing ys with
  | nil =>
    cases ys with
    | nil => simpa using h
    | cons y ys =>
      simp only [List.nil_append, List.cons_append, List.cons.injEq] at h
      exact absurd (by rw [← h.1]; simp) hy
  | cons x xs ih =>
    cases ys with
    | nil =>
      simp only [List.nil_append, List.cons_append, List.cons.injEq] at h
      exact absurd (by rw [h.1]; simp) hx
    | cons y ys =>
      simp only [List.cons_append, List.cons.injEq] at h
      have hx2 : ',' ∉ xs := fun hm => hx (List.mem_cons_of_mem _ hm)
      have hy2 : ',' ∉ ys := fun hm => hy (List.mem_cons_of_mem _ hm)
      obtain ⟨h1, h2⟩ := ih ys hx2 hy2 h.2
      exact ⟨by rw [h.1, h1], h2⟩

/-! ## Post identity -/

/-- C1: `generatePostUID` is injective on pairs of a feed id and a native item id: two keys
are equal exactly when the feed ids are equal and the item ids are equal, whatever the item
ids contain; in particular two different item ids of one feed have different keys. -/
theorem generatePostUID_eq_iff (f1 f2 : Int) (p1 p2 : String) :
    (generatePostUID f1 p1 = generatePostUID f2 p2 ↔ f1 = f2 ∧ p1 = p2) ∧
    (p1 ≠ p2 → generatePostUID f1 p1 ≠ generatePostUID f1 p2) := by
  have key : ∀ (g : Int) (q : String),
      generatePostUID f1 p1 = generatePostUID g q → f1 = g ∧ p1 = q := by
    intro g q h
    have hd := congrArg String.data h
    simp only [generatePostUID, String.data_append, List.append_assoc,
      List.singleton_append] at hd
    obtain ⟨h1, h2⟩ := split_at_first_comma _ _ _ _ (formatInt_no_comma f1)
      (formatInt_no_comma g) hd
    exact ⟨formatInt_injective f1 g (String.ext h1), String.ext h2⟩
  refine ⟨⟨key f2 p2, ?_⟩, ?_⟩
  · rintro ⟨rfl, rfl⟩
    rfl
  · intro hne h
    exact hne (key f1 p2 h).2

/-- Two item ids of feed 7, one of them with a comma and digits in it. -/
theorem generatePostUID_eq_iff_witness :
    generatePostUID 7 "1,2" ≠ generatePostUID 7 "2" :=
  (generatePostUID_eq_iff 7 7 "1,2" "2").2 (by decide)

/-! ## The scheduler step -/

theorem notDue_iff (now : Time) (feed : Feed) :
    notDue now feed = true ↔
      ∃ lc, feed.LastChecked = some lc ∧ now.unixNano - lc.Time.unixNano < 15 * 60000000000 := by
  unfold notDue
  cases h : feed.LastChecked with
  | none => simp
  | some lc =>
    simp only [Time.Sub, Time.UTC, minDuration, maxDuration, Minute, decide_eq_true_eq,
      Option.some.injEq, exists_eq_left']
    split_ifs <;> omega

theorem evalFeed_notDue (lib : Lib) (w : World) (db : DB) (feed : Feed)
    (h : notDue w.now feed = true) : evalFeed lib w db feed = ⟨[], db⟩ := by
  simp [evalFeed, h]

theorem evalFeed_due_starts (lib : Lib) (w : World) (db : DB) (feed : Feed)
    (h : notDue w.now feed = false) :
    ∃ rest, (evalFeed lib w db feed).events =
      .sleep (1 * Minute) :: .httpGet feed.URL :: rest := by
  unfold evalFeed
  rw [h]
  simp only [Bool.false_eq_true, if_false]
  split
  · split
    · exact ⟨_, rfl⟩
    · exact ⟨_, rfl⟩
  · exact ⟨_, rfl⟩
  · split
    · exact ⟨_, rfl⟩
    · exact ⟨_, rfl⟩

/-- C2: in one evaluation of a feed at time `now`, a fetch is attempted if and only if the
feed has no checkpoint or `now − LastChecked` is at least 15 minutes; a feed whose checkpoint
is less than 15 minutes old (also one in the future) is skipped with no fetch, no checkpoint
write and no post insert: no event at all and an unchanged database. -/
theorem fetch_attempted_iff_due (lib : Lib) (w : World) (db : DB) (feed : Feed) :
    ((∃ url, Event.httpGet url ∈ (evalFeed lib w db feed).events) ↔
      (feed.LastChecked = none ∨
        ∃ lc, feed.LastChecked = some lc ∧
          w.now.unixNano - lc.Time.unixNano ≥ 15 * 60000000000)) ∧
    (∀ lc, feed.LastChecked = some lc →
      w.now.unixNano - lc.Time.unixNano < 15 * 60000000000 →
      evalFeed lib w db feed = ⟨[], db⟩) := by
  constructor
  · cases hnd : notDue w.now feed with
    | true =>
      rw [evalFeed_notDue lib w db feed hnd]
      obtain ⟨lc, hlc, hlt⟩ := (notDue_iff w.now feed).mp hnd
      constructor
      · rintro ⟨url, hmem⟩
        simp at hmem
      · rintro (hnone | ⟨lc2, hlc2, hge⟩)
        · rw [hnone] at hlc
          cases hlc
        · rw [hlc2] at hlc
          cases hlc
          omega
    | false =>
      obtain ⟨rest, hev⟩ := evalFeed_due_starts lib w db feed hnd
      constructor
      · intro _
        cases hlc : feed.LastChecked with
        | none => exact Or.inl rfl
        | some lc =>
          refine Or.inr ⟨lc, rfl, ?_⟩
          by_contra hlt
          have : notDue w.now feed = true :=
            (notDue_iff w.now feed).mpr ⟨lc, hlc, by omega⟩
          rw [hnd] at this
          cases this
      · intro _
        exact ⟨feed.URL, by rw [hev]; simp⟩
  · intro lc hlc hlt
    exact evalFeed_notDue lib w db feed ((notDue_iff w.now feed).mpr ⟨lc, hlc, hlt⟩)

/-- A feed checked five minutes before the clock of the sample world. -/
theorem fetch_attempted_iff_due_witness :
    (sampleFeed 1 "https://a.example/atom").LastChecked = none ∧
    (∃ url, Event.httpGet url ∈
      (evalFeed sampleLib sampleWorld sampleDB (sampleFeed 1 "https://a.example/atom")).events) ∧
    evalFeed sampleLib sampleWorld sampleDB
      { sampleFeed 1 "https://a.example/atom" with LastChecked := some ⟨⟨1704190500000000000⟩⟩ }
      = ⟨[], sampleDB⟩ :=
  ⟨rfl,
   (fetch_attempted_iff_due sampleLib sampleWorld sampleDB
      (sampleFeed 1 "https://a.example/atom")).1.mpr (Or.inl rfl),
   (fetch_attempted_iff_due sampleLib sampleWorld sampleDB
      { sampleFeed 1 "https://a.example/atom" with LastChecked := some ⟨⟨1704190500000000000⟩⟩ }).2
      ⟨⟨1704190500000000000⟩⟩ rfl (by decide)⟩

theorem execUpdate_feeds (db : DB) (formattedDate : String) (id : Int) :
    (db.execUpdate formattedDate id).feeds =
      db.feeds.map
        (fun row => if row.id = id then ⟨row.id, row.url, some formattedDate⟩ else row) := by
  rfl

theorem execUpdate_checkpoint (db : DB) (formattedDate : String) (id : Int) :
    ∀ row ∈ (db.execUpdate formattedDate id).feeds,
      row.id = id → row.last_checked = some formattedDate := by
  intro row hmem hid
  rw [execUpdate_feeds] at hmem
  obtain ⟨r, _, hr⟩ := List.mem_map.mp hmem
  by_cases h : r.id = id
  · rw [if_pos h] at hr
    rw [← hr]
  · rw [if_neg h] at hr
    rw [← hr] at hid
    exact absurd hid h

theorem execUpdate_row (db : DB) (formattedDate : String) (id : Int) :
    ∀ row ∈ db.feeds, row.id = id →
      (⟨row.id, row.url, some formattedDate⟩ : FeedRow) ∈
        (db.execUpdate formattedDate id).feeds := by
  intro row hmem hid
  rw [execUpdate_feeds]
  exact List.mem_map.mpr ⟨row, hmem, by rw [if_pos hid]⟩

theorem fetchFeed_status_429 (lib : Lib) (get : String → HttpOutcome) (feed : Feed)
    (body : Except String (List UInt8)) (h : get feed.URL = .response 429 body) :
    fetchFeed lib get feed = .error .ErrRequestTimeout := by
  simp [fetchFeed, h]

theorem evalFeed_rate_limited (lib : Lib) (w : World) (db : DB) (feed : Feed)
    (hdue : notDue w.now feed = false)
    (h : fetchFeed lib w.get feed = .error .ErrRequestTimeout) :
    evalFeed lib w db feed =
      ⟨[.sleep (1 * Minute), .httpGet feed.URL,
        .logFetchError feed.URL .ErrRequestTimeout, .sleep (1 * Minute)], db⟩ := by
  simp [evalFeed, hdue, h]

theorem evalFeed_failed (lib : Lib) (w : World) (db : DB) (feed : Feed) (err : FetchError)
    (hdue : notDue w.now feed = false) (h : fetchFeed lib w.get feed = .error err)
    (hne : err ≠ .ErrRequestTimeout) :
    evalFeed lib w db feed =
      ⟨[.sleep (1 * Minute), .httpGet feed.URL, .logFetchError feed.URL err,
        .execUpdate (lib.formatDateTime w.nowUpdate) feed.ID],
       if w.updateFails then db else db.execUpdate (lib.formatDateTime w.nowUpdate) feed.ID⟩ := by
  cases hu : w.updateFails <;>
    simp [evalFeed, hdue, h, hne, updateFeedLastChecked, hu, Time.UTC]

theorem evalFeed_no_posts (lib : Lib) (w : World) (db : DB) (feed : Feed)
    (hdue : notDue w.now feed = false) (h : fetchFeed lib w.get feed = .ok []) :
    evalFeed lib w db feed = ⟨[.sleep (1 * Minute), .httpGet feed.URL], db⟩ := by
  simp [evalFeed, hdue, h]

theorem evalFeed_posts (lib : Lib) (w : World) (db : DB) (feed : Feed)
    (newestPost : NewPost) (others : List NewPost)
    (hdue : notDue w.now feed = false)
    (h : fetchFeed lib w.get feed = .ok (newestPost :: others)) :
    evalFeed lib w db feed =
      ⟨[.sleep (1 * Minute), .httpGet feed.URL,
        .execUpdate (lib.formatDateTime w.nowUpdate) feed.ID,
        .execInsert ⟨newestPost.Title, newestPost.URL, newestPost.FeedID,
          lib.formatDateTime newestPost.Date.Time, newestPost.UID⟩,
        if w.insertFails then .logSaveError else .printSaved],
       { feeds := if w.updateFails then db.feeds
                  else (db.execUpdate (lib.formatDateTime w.nowUpdate) feed.ID).feeds
         posts := if w.insertFails then db.posts
                  else db.posts ++ [⟨newestPost.Title, newestPost.URL, newestPost.FeedID,
                    lib.formatDateTime newestPost.Date.Time, newestPost.UID⟩] }⟩ := by
  cases hu : w.updateFails <;> cases hi : w.insertFails <;>
    simp [evalFeed, hdue, h, updateFeedLastChecked, hu, hi, Time.UTC, SQLTime.FormatToDB,
      DB.execInsert, DB.execUpdate]

theorem fetchFeed_fails_of_cause (lib : Lib) (get : String → HttpOutcome) (feed : Feed)
    (h : FailsOtherThan429 lib (get feed.URL)) :
    ∃ err, fetchFeed lib get feed = .error err ∧ err ≠ .ErrRequestTimeout := by
  generalize ho : get feed.URL = o at h
  cases h with
  | transport msg => exact ⟨.transport msg, by simp [fetchFeed, ho], by simp⟩
  | status code body hout hne => exact ⟨.status code, by simp [fetchFeed, ho, hout, hne], by simp⟩
  | bodyRead code msg hlo hhi =>
    have hin : ¬ (code < 200 ∨ code > 299) := by omega
    exact ⟨.bodyRead msg, by simp [fetchFeed, ho, hin], by simp⟩
  | decodeRoot code data msg hlo hhi hdec =>
    have hin : ¬ (code < 200 ∨ code > 299) := by omega
    exact ⟨.xmlDecode msg, by simp [fetchFeed, ho, hin, hdec], by simp⟩
  | decodeAtom code data msg hlo hhi hroot hdec =>
    have hin : ¬ (code < 200 ∨ code > 299) := by omega
    exact ⟨.xmlDecode msg, by simp [fetchFeed, ho, hin, hroot, getAtomPosts, hdec], by simp⟩
  | decodeRSS code data msg hlo hhi hroot hdec =>
    have hin : ¬ (code < 200 ∨ code > 299) := by omega
    exact ⟨.xmlDecode msg, by simp [fetchFeed, ho, hin, hroot, getRSSPosts, hdec], by simp⟩
  | unsupported code data root hlo hhi hroot hnf hnr =>
    have hin : ¬ (code < 200 ∨ code > 299) := by omega
    exact ⟨.unsupportedFormat root, by simp [fetchFeed, ho, hin, hroot, hnf, hnr], by simp⟩

/-- C3: for a due feed whose response has status 429, `fetchFeed` returns
`ErrRequestTimeout` and the step leaves the database unchanged: it sleeps, fetches, logs and
sleeps again, with no checkpoint write and no post insert. -/
theorem rate_limited_leaves_store (lib : Lib) (w : World) (db : DB) (feed : Feed)
    (body : Except String (List UInt8))
    (hdue : notDue w.now feed = false) (h429 : w.get feed.URL = .response 429 body) :
    fetchFeed lib w.get feed = .error .ErrRequestTimeout ∧
    (evalFeed lib w db feed).db = db ∧
    (evalFeed lib w db feed).events =
      [.sleep (1 * Minute), .httpGet feed.URL,
       .logFetchError feed.URL .ErrRequestTimeout, .sleep (1 * Minute)] ∧
    (∀ d id, Event.execUpdate d id ∉ (evalFeed lib w db feed).events) ∧
    (∀ row, Event.execInsert row ∉ (evalFeed lib w db feed).events) := by
  have hf := fetchFeed_status_429 lib w.get feed body h429
  rw [evalFeed_rate_limited lib w db feed hdue hf]
  exact ⟨hf, rfl, rfl, by simp, by simp⟩

/-- The feed `https://a.example/busy` of the sample world answers 429. -/
theorem rate_limited_leaves_store_witness :
    (evalFeed sampleLib sampleWorld sampleDB (sampleFeed 4 "https://a.example/busy")).db
      = sampleDB :=
  (rate_limited_leaves_store sampleLib sampleWorld sampleDB
    (sampleFeed 4 "https://a.example/busy") (.ok []) rfl rfl).2.1

/-- C4: for a due feed whose fetch fails for a reason other than status 429 (another status
outside 200..299, a transport or body-read error, an XML decode error, a root element that is
neither `feed` nor `rss`), `fetchFeed` returns an error other than `ErrRequestTimeout`, the
step issues the checkpoint write with the current time, inserts no post, and the loop goes on
with the next feed.  Unless the `UPDATE` itself fails, the table `feeds` after the step is the
table before it with `last_checked` set to the formatted current time in every row of this
feed's id and every other row unchanged: each row of the feed carries the new checkpoint. -/
theorem failed_fetch_advances_checkpoint (lib : Lib) (w : World) (db : DB) (feed : Feed)
    (hdue : notDue w.now feed = false) (hcause : FailsOtherThan429 lib (w.get feed.URL)) :
    ∃ err, fetchFeed lib w.get feed = .error err ∧ err ≠ .ErrRequestTimeout ∧
      (evalFeed lib w db feed).events =
        [.sleep (1 * Minute), .httpGet feed.URL, .logFetchError feed.URL err,
         .execUpdate (lib.formatDateTime w.nowUpdate) feed.ID] ∧
      (evalFeed lib w db feed).db =
        (if w.updateFails then db
         else db.execUpdate (lib.formatDateTime w.nowUpdate) feed.ID) ∧
      (evalFeed lib w db feed).db.posts = db.posts ∧
      (∀ row, Event.execInsert row ∉ (evalFeed lib w db feed).events) ∧
      (∀ (world : Nat → World) (i : Nat) (rest : List Feed), world i = w →
        rangeFeeds lib world i (feed :: rest) db =
          ⟨(evalFeed lib w db feed).events ++
             (rangeFeeds lib world (i + 1) rest (evalFeed lib w db feed).db).events,
           (rangeFeeds lib world (i + 1) rest (evalFeed lib w db feed).db).db⟩) ∧
      (w.updateFails = false →
        (evalFeed lib w db feed).db.feeds =
          db.feeds.map (fun row =>
            if row.id = feed.ID then
              ⟨row.id, row.url, some (lib.formatDateTime w.nowUpdate)⟩
            else row) ∧
        (∀ row ∈ (evalFeed lib w db feed).db.feeds, row.id = feed.ID →
          row.last_checked = some (lib.formatDateTime w.nowUpdate)) ∧
        (∀ row ∈ db.feeds, row.id = feed.ID →
          (⟨row.id, row.url, some (lib.formatDateTime w.nowUpdate)⟩ : FeedRow) ∈
            (evalFeed lib w db feed).db.feeds)) ∧
      (w.updateFails = true → (evalFeed lib w db feed).db.feeds = db.feeds) := by
  obtain ⟨err, hf, hne⟩ := fetchFeed_fails_of_cause lib w.get feed hcause
  refine ⟨err, hf, hne, ?_⟩
  rw [evalFeed_failed lib w db feed err hdue hf hne]
  refine ⟨rfl, rfl, ?_, by simp, ?_, ?_, ?_⟩
  · cases w.updateFails <;> simp [DB.execUpdate]
  · intro world i rest hw
    simp only [rangeFeeds, hw]
    rw [evalFeed_failed lib w db feed err hdue hf hne]
  · intro hu
    simp only [hu, Bool.false_eq_true, if_false]
    exact ⟨execUpdate_feeds db _ feed.ID, execUpdate_checkpoint db _ feed.ID,
      execUpdate_row db _ feed.ID⟩
  · intro hu
    simp only [hu, if_true]

/-- The feed `https://a.example/foo` of the sample world has root element `foo`. -/
theorem failed_fetch_advances_checkpoint_witness :
    ∃ err, fetchFeed sampleLib sampleWorld.get (sampleFeed 3 "https://a.example/foo")
        = .error err ∧ err ≠ .ErrRequestTimeout ∧
      (evalFeed sampleLib sampleWorld sampleDB (sampleFeed 3 "https://a.example/foo")).db =
        sampleDB.execUpdate "2024-01-02 10:20:00" 3 ∧
      (evalFeed sampleLib sampleWorld sampleDB (sampleFeed 3 "https://a.example/foo")).db.feeds =
        [ ⟨1, "https://a.example/atom", none⟩, ⟨2, "https://a.example/rss", none⟩,
          ⟨3, "https://a.example/foo", some "2024-01-02 10:20:00"⟩,
          ⟨4, "https://a.example/busy", none⟩ ] := by
  obtain ⟨err, h1, h2, _, h4, _, _, _, h8, _⟩ :=
    failed_fetch_advances_checkpoint sampleLib sampleWorld sampleDB
      (sampleFeed 3 "https://a.example/foo") rfl
      (FailsOtherThan429.unsupported 200 sampleFooBody "foo" (by decide) (by decide)
        rfl (by decide) (by decide))
  exact ⟨err, h1, h2, h4, (h8 rfl).1.trans (by decide)⟩

/-! ## The parsers -/

theorem atom_foldl (lib : Lib) (feed : Feed) (entries : List AtomEntry) (acc : List NewPost) :
    entries.foldl (atomLoopBody lib feed) acc =
      acc ++ entries.filterMap (atomEntryPost lib feed) := by
  induction entries generalizing acc with
  | nil => simp
  | cons e es ih =>
    rw [List.foldl_cons, ih]
    cases hp : lib.parseRFC3339 e.Published <;>
      simp [atomLoopBody, atomEntryPost, List.filterMap_cons, hp]

theorem rss_foldl (lib : Lib) (feed : Feed) (items : List RSSItem) (acc : List NewPost) :
    items.foldl (rssLoopBody lib feed) acc =
      acc ++ items.filterMap (rssItemPost lib feed) := by
  induction items generalizing acc with
  | nil => simp
  | cons e es ih =>
    rw [List.foldl_cons, ih]
    cases hp : lib.parseRFC1123 e.PubDate <;>
      simp [rssLoopBody, rssItemPost, List.filterMap_cons, hp]

theorem getAtomPosts_ok (lib : Lib) (body : List UInt8) (feed : Feed) (atomFeed : AtomFeed)
    (h : lib.decodeAtom body = .ok atomFeed) :
    getAtomPosts lib body feed = .ok (atomFeed.Entries.filterMap (atomEntryPost lib feed)) := by
  simp [getAtomPosts, h, atom_foldl]

theorem getRSSPosts_ok (lib : Lib) (body : List UInt8) (feed : Feed) (rssFeed : RSSFeed)
    (h : lib.decodeRSS body = .ok rssFeed) :
    getRSSPosts lib body feed = .ok (rssFeed.Items.filterMap (rssItemPost lib feed)) := by
  simp [getRSSPosts, h, rss_foldl]

/-- C7: for every decoded list of entries or items, `getAtomPosts` and `getRSSPosts` return
the order-preserving filter-map of the list: one post per entry whose date parses, in document
order; an entry whose date does not parse is dropped, the entries before and after it are
still returned, and the result is not an error. -/
theorem parsers_filterMap (lib : Lib) (feed : Feed) (body : List UInt8) :
    (∀ atomFeed, lib.decodeAtom body = .ok atomFeed →
      getAtomPosts lib body feed = .ok (atomFeed.Entries.filterMap (atomEntryPost lib feed)) ∧
      ∀ before bad after, atomFeed.Entries = before ++ bad :: after →
        lib.parseRFC3339 bad.Published = none →
        getAtomPosts lib body feed =
          .ok (before.filterMap (atomEntryPost lib feed) ++
               after.filterMap (atomEntryPost lib feed))) ∧
    (∀ rssFeed, lib.decodeRSS body = .ok rssFeed →
      getRSSPosts lib body feed = .ok (rssFeed.Items.filterMap (rssItemPost lib feed)) ∧
      ∀ before bad after, rssFeed.Items = before ++ bad :: after →
        lib.parseRFC1123 bad.PubDate = none →
        getRSSPosts lib body feed =
          .ok (before.filterMap (rssItemPost lib feed) ++
               after.filterMap (rssItemPost lib feed))) := by
  constructor
  · intro atomFeed h
    refine ⟨getAtomPosts_ok lib body feed atomFeed h, ?_⟩
    intro before bad after hsplit hbad
    rw [getAtomPosts_ok lib body feed atomFeed h, hsplit]
    simp [List.filterMap_append, List.filterMap_cons, atomEntryPost, hbad]
  · intro rssFeed h
    refine ⟨getRSSPosts_ok lib body feed rssFeed h, ?_⟩
    intro before bad after hsplit hbad
    rw [getRSSPosts_ok lib body feed rssFeed h, hsplit]
    simp [List.filterMap_append, List.filterMap_cons, rssItemPost, hbad]

theorem sampleLib_decodeAtom :
    sampleLib.decodeAtom sampleAtomBody =
      .ok
        { ID := ""
          Entries :=
            [ { ID := "a2", Href := "https://a.example/2", Published := "2024-01-02T10:00:00Z",
                Title := "Second" },
              { ID := "a1", Href := "https://a.example/1", Published := "2024-01-01T10:00:00Z",
                Title := "First" } ] } := by
  simp [sampleLib]

theorem sampleLib_decodeURLFeed_atom :
    sampleLib.decodeURLFeed sampleAtomBody = .ok ⟨"feed"⟩ := by
  simp [sampleLib]

/-- The Atom sample document gives its two entries, in document order. -/
theorem parsers_filterMap_witness :
    getAtomPosts sampleLib sampleAtomBody (sampleFeed 1 "https://a.example/atom") =
      .ok [⟨"Second", "https://a.example/2", 1, generatePostUID 1 "a2", ⟨jan2⟩⟩,
           ⟨"First", "https://a.example/1", 1, generatePostUID 1 "a1", ⟨jan1⟩⟩] :=
  ((parsers_filterMap sampleLib (sampleFeed 1 "https://a.example/atom") sampleAtomBody).1
    _ sampleLib_decodeAtom).1

theorem sampleLib_decodeURLFeed_rss :
    sampleLib.decodeURLFeed sampleRSSBody = .ok ⟨"rss"⟩ := by
  rfl

theorem sampleLib_decodeRSS : sampleLib.decodeRSS sampleRSSBody = .ok ⟨[]⟩ := by
  rfl

theorem sampleLib_decodeRSS_items :
    sampleLib.decodeRSS sampleRSSItemsBody =
      .ok
        { Items :=
            [ { Title := "Second", Link := "https://a.example/2",
                PubDate := "Tue, 02 Jan 2024 10:00:00 UTC", GUID := "a2" },
              { Title := "First", Link := "https://a.example/1",
                PubDate := "Mon, 01 Jan 2024 10:00:00 UTC", GUID := "a1" } ] } := by
  simp [sampleLib]

/-! ## Successful fetches -/

theorem fetchFeed_atom (lib : Lib) (get : String → HttpOutcome) (feed : Feed)
    (code : Int) (data : List UInt8) (atomFeed : AtomFeed)
    (hget : get feed.URL = .response code (.ok data)) (hlo : 200 ≤ code) (hhi : code ≤ 299)
    (hroot : lib.decodeURLFeed data = .ok ⟨"feed"⟩)
    (hatom : lib.decodeAtom data = .ok atomFeed) :
    fetchFeed lib get feed = .ok (atomFeed.Entries.filterMap (atomEntryPost lib feed)) := by
  have hin : ¬ (code < 200 ∨ code > 299) := by omega
  simp only [fetchFeed, hget, hin, if_false, hroot, if_true]
  exact getAtomPosts_ok lib data feed _ hatom

theorem filterMap_sameContent (lib : Lib) (feed : Feed) (entries : List AtomEntry)
    (items : List RSSItem) (h : List.Forall₂ (SameContent lib) entries items) :
    entries.filterMap (atomEntryPost lib feed) = items.filterMap (rssItemPost lib feed) := by
  induction h with
  | nil => rfl
  | cons hhead _ ih =>
    obtain ⟨hT, hL, hI, t, hpA, hpR⟩ := hhead
    simp only [List.filterMap_cons, atomEntryPost, rssItemPost, hpA, hpR, Option.map_some',
      hT, hL, hI]
    exact congrArg _ ih

/-- C5, as the code has it: for a due feed whose fetch succeeds with an RSS document of zero
items the parsed sequence is empty and the step is a no-op after the fetch: no post is
inserted, no checkpoint write is issued and the database is unchanged. -/
theorem empty_rss_is_noop (lib : Lib) (w : World) (db : DB) (feed : Feed)
    (code : Int) (data : List UInt8)
    (hdue : notDue w.now feed = false)
    (hget : w.get feed.URL = .response code (.ok data))
    (hlo : 200 ≤ code) (hhi : code ≤ 299)
    (hroot : lib.decodeURLFeed data = .ok ⟨"rss"⟩)
    (hrss : lib.decodeRSS data = .ok ⟨[]⟩) :
    fetchFeed lib w.get feed = .ok [] ∧
    (evalFeed lib w db feed).events = [.sleep (1 * Minute), .httpGet feed.URL] ∧
    (evalFeed lib w db feed).db = db ∧
    (∀ d id, Event.execUpdate d id ∉ (evalFeed lib w db feed).events) ∧
    (∀ row, Event.execInsert row ∉ (evalFeed lib w db feed).events) := by
  have hin : ¬ (code < 200 ∨ code > 299) := by omega
  have hf : fetchFeed lib w.get feed = .ok [] := by
    simp [fetchFeed, hget, hin, hroot, getRSSPosts, hrss]
  rw [evalFeed_no_posts lib w db feed hdue hf]
  exact ⟨hf, rfl, rfl, by simp, by simp⟩

/-- The feed `https://a.example/rss` of the sample world is an RSS document without items. -/
theorem empty_rss_is_noop_witness :
    (evalFeed sampleLib sampleWorld sampleDB (sampleFeed 2 "https://a.example/rss")).db
      = sampleDB :=
  (empty_rss_is_noop sampleLib sampleWorld sampleDB (sampleFeed 2 "https://a.example/rss")
    200 sampleRSSBody rfl rfl (by decide) (by decide)
    sampleLib_decodeURLFeed_rss sampleLib_decodeRSS).2.2.1

/-- C5, as stated, fails: in the sample world, where no `Exec` would fail, the due feed
`https://a.example/rss` is fetched, parses to zero posts, and its checkpoint is not
advanced: no `UPDATE` is issued and `last_checked` of every row is still unset. -/
theorem empty_rss_checkpoint_not_advanced :
    notDue sampleWorld.now (sampleFeed 2 "https://a.example/rss") = false ∧
    sampleWorld.updateFails = false ∧
    fetchFeed sampleLib sampleWorld.get (sampleFeed 2 "https://a.example/rss") = .ok [] ∧
    (evalFeed sampleLib sampleWorld sampleDB (sampleFeed 2 "https://a.example/rss")).events =
      [.sleep (1 * Minute), .httpGet "https://a.example/rss"] ∧
    (evalFeed sampleLib sampleWorld sampleDB
      (sampleFeed 2 "https://a.example/rss")).db.feeds.map (fun row => row.last_checked) =
      [none, none, none, none] := by
  have hf : fetchFeed sampleLib sampleWorld.get (sampleFeed 2 "https://a.example/rss")
      = .ok [] := by
    have hin : ¬ ((200 : Int) < 200 ∨ (200 : Int) > 299) := by decide
    have hget : sampleWorld.get (sampleFeed 2 "https://a.example/rss").URL =
        .response 200 (.ok sampleRSSBody) := rfl
    simp [fetchFeed, hget, sampleLib_decodeURLFeed_rss, getRSSPosts, sampleLib_decodeRSS]
  refine ⟨rfl, rfl, hf, ?_, ?_⟩
  · rw [evalFeed_no_posts sampleLib sampleWorld sampleDB
      (sampleFeed 2 "https://a.example/rss") rfl hf]
    rfl
  · rw [evalFeed_no_posts sampleLib sampleWorld sampleDB
      (sampleFeed 2 "https://a.example/rss") rfl hf]
    rfl

/-- C6: for a due feed whose fetch succeeds with a non-empty parsed sequence, the step
issues the checkpoint write with the current time and then exactly one post insert, with the
title, URL, feed id, date and uid of the first element; no other element is inserted, and the
checkpoint written does not depend on whether the insert fails.  For an Atom document whose
two entries are dated 2024-01-02T10:00:00Z and 2024-01-01T10:00:00Z in that order, the first
element, and so the post inserted, is the 2024-01-02 entry.  Unless the `UPDATE` itself fails,
the table `feeds` after the step, whether the insert fails or not, is the table before it
with `last_checked` set to the formatted current time in every row of this feed's id and
every other row unchanged. -/
theorem newest_post_persisted (lib : Lib) (w : World) (db : DB) (feed : Feed)
    (newestPost : NewPost) (others : List NewPost)
    (hdue : notDue w.now feed = false)
    (hok : fetchFeed lib w.get feed = .ok (newestPost :: others)) :
    (evalFeed lib w db feed).events =
      [.sleep (1 * Minute), .httpGet feed.URL,
       .execUpdate (lib.formatDateTime w.nowUpdate) feed.ID,
       .execInsert ⟨newestPost.Title, newestPost.URL, newestPost.FeedID,
         lib.formatDateTime newestPost.Date.Time, newestPost.UID⟩,
       if w.insertFails then .logSaveError else .printSaved] ∧
    (evalFeed lib w db feed).db.feeds =
      (if w.updateFails then db.feeds
       else (db.execUpdate (lib.formatDateTime w.nowUpdate) feed.ID).feeds) ∧
    (evalFeed lib w db feed).db.posts =
      (if w.insertFails then db.posts
       else db.posts ++ [⟨newestPost.Title, newestPost.URL, newestPost.FeedID,
         lib.formatDateTime newestPost.Date.Time, newestPost.UID⟩]) ∧
    (∀ (code : Int) (data : List UInt8) (id : String) (e1 e2 : AtomEntry) (t1 : Time),
      w.get feed.URL = .response code (.ok data) → 200 ≤ code → code ≤ 299 →
      lib.decodeURLFeed data = .ok ⟨"feed"⟩ →
      lib.decodeAtom data = .ok ⟨id, [e1, e2]⟩ →
      e1.Published = "2024-01-02T10:00:00Z" → e2.Published = "2024-01-01T10:00:00Z" →
      lib.parseRFC3339 "2024-01-02T10:00:00Z" = some t1 →
      newestPost = ⟨e1.Title, e1.Href, feed.ID, generatePostUID feed.ID e1.ID, ⟨t1⟩⟩) ∧
    (w.updateFails = false →
      (evalFeed lib w db feed).db.feeds =
        db.feeds.map (fun row =>
          if row.id = feed.ID then
            ⟨row.id, row.url, some (lib.formatDateTime w.nowUpdate)⟩
          else row) ∧
      (∀ row ∈ (evalFeed lib w db feed).db.feeds, row.id = feed.ID →
        row.last_checked = some (lib.formatDateTime w.nowUpdate)) ∧
      (∀ row ∈ db.feeds, row.id = feed.ID →
        (⟨row.id, row.url, some (lib.formatDateTime w.nowUpdate)⟩ : FeedRow) ∈
          (evalFeed lib w db feed).db.feeds)) ∧
    (w.updateFails = true → (evalFeed lib w db feed).db.feeds = db.feeds) := by
  rw [evalFeed_posts lib w db feed newestPost others hdue hok]
  refine ⟨rfl, rfl, rfl, ?_, ?_, ?_⟩
  · intro code data id e1 e2 t1 hget hlo hhi hroot hatom h1 _ ht1
    have hf : fetchFeed lib w.get feed =
        .ok ([e1, e2].filterMap (atomEntryPost lib feed)) :=
      fetchFeed_atom lib w.get feed code data _ hget hlo hhi hroot hatom
    rw [hf] at hok
    simp only [List.filterMap_cons, atomEntryPost, h1, ht1, Option.map_some',
      Except.ok.injEq] at hok
    exact (List.cons.inj hok).1.symm
  · intro hu
    simp only [hu, Bool.false_eq_true, if_false]
    exact ⟨execUpdate_feeds db _ feed.ID, execUpdate_checkpoint db _ feed.ID,
      execUpdate_row db _ feed.ID⟩
  · intro hu
    simp only [hu, if_true]

theorem sample_fetch_atom :
    fetchFeed sampleLib sampleWorld.get (sampleFeed 1 "https://a.example/atom") =
      .ok [⟨"Second", "https://a.example/2", 1, generatePostUID 1 "a2", ⟨jan2⟩⟩,
           ⟨"First", "https://a.example/1", 1, generatePostUID 1 "a1", ⟨jan1⟩⟩] := by
  rw [fetchFeed_atom sampleLib sampleWorld.get (sampleFeed 1 "https://a.example/atom")
    200 sampleAtomBody _ rfl (by decide) (by decide) sampleLib_decodeURLFeed_atom
    sampleLib_decodeAtom]
  rfl

/-- The Atom feed of the sample world: the entry dated 2024-01-02 is the one inserted and
the row of feed 1 carries the new checkpoint. -/
theorem newest_post_persisted_witness :
    (evalFeed sampleLib sampleWorld sampleDB (sampleFeed 1 "https://a.example/atom")).db.feeds =
      [ ⟨1, "https://a.example/atom", some "2024-01-02 10:20:00"⟩,
        ⟨2, "https://a.example/rss", none⟩, ⟨3, "https://a.example/foo", none⟩,
        ⟨4, "https://a.example/busy", none⟩ ] ∧
    (evalFeed sampleLib sampleWorld sampleDB (sampleFeed 1 "https://a.example/atom")).db.posts =
      [⟨"Second", "https://a.example/2", 1, "2024-01-02 10:00:00", generatePostUID 1 "a2"⟩] ∧
    (⟨"Second", "https://a.example/2", 1, generatePostUID 1 "a2", ⟨jan2⟩⟩ : NewPost) =
      ⟨"Second", "https://a.example/2", 1, generatePostUID 1 "a2", ⟨jan2⟩⟩ :=
  ⟨((newest_post_persisted sampleLib sampleWorld sampleDB
      (sampleFeed 1 "https://a.example/atom") _ _ rfl sample_fetch_atom).2.2.2.2.1 rfl).1.trans
      (by decide),
   (newest_post_persisted sampleLib sampleWorld sampleDB
      (sampleFeed 1 "https://a.example/atom") _ _ rfl sample_fetch_atom).2.2.1,
   (newest_post_persisted sampleLib sampleWorld sampleDB
      (sampleFeed 1 "https://a.example/atom") _ _ rfl sample_fetch_atom).2.2.2.1
      200 sampleAtomBody ""
      { ID := "a2", Href := "https://a.example/2", Published := "2024-01-02T10:00:00Z",
        Title := "Second" }
      { ID := "a1", Href := "https://a.example/1", Published := "2024-01-01T10:00:00Z",
        Title := "First" }
      jan2 rfl (by decide) (by decide) sampleLib_decodeURLFeed_atom sampleLib_decodeAtom
      rfl rfl rfl⟩

/-! ## Pacing -/

/-- C8, as the code has it: a fixed 1-minute pacing delay is applied, before the fetch, for
every due feed, whatever the outcome of the fetch (rate-limited, failed, zero posts, a post
inserted); a feed that is not due is skipped without any delay. -/
theorem pacing_delay_iff_due (lib : Lib) (w : World) (db : DB) (feed : Feed) :
    (notDue w.now feed = false →
      ∃ rest, (evalFeed lib w db feed).events =
        .sleep (1 * Minute) :: .httpGet feed.URL :: rest) ∧
    (notDue w.now feed = true → (evalFeed lib w db feed).events = []) := by
  constructor
  · exact evalFeed_due_starts lib w db feed
  · intro h
    rw [evalFeed_notDue lib w db feed h]

/-- A due feed and a feed that is not due in the sample world. -/
theorem pacing_delay_iff_due_witness :
    (∃ rest, (evalFeed sampleLib sampleWorld sampleDB
        (sampleFeed 4 "https://a.example/busy")).events =
      .sleep (1 * Minute) :: .httpGet "https://a.example/busy" :: rest) ∧
    (evalFeed sampleLib sampleWorld sampleDB recentFeed).events = [] :=
  ⟨(pacing_delay_iff_due sampleLib sampleWorld sampleDB
      (sampleFeed 4 "https://a.example/busy")).1 rfl,
   (pacing_delay_iff_due sampleLib sampleWorld sampleDB recentFeed).2 rfl⟩

/-- C8, as stated, fails: the sample feed checked five minutes ago is evaluated and skipped
with no event at all, so no pacing delay is applied for it. -/
theorem skipped_feed_has_no_delay :
    notDue sampleWorld.now recentFeed = true ∧
    evalFeed sampleLib sampleWorld sampleDB recentFeed = ⟨[], sampleDB⟩ ∧
    ∀ d, Event.sleep d ∉ (evalFeed sampleLib sampleWorld sampleDB recentFeed).events := by
  refine ⟨rfl, rfl, ?_⟩
  intro d
  rw [evalFeed_notDue sampleLib sampleWorld sampleDB recentFeed rfl]
  simp

/-! ## Atom and RSS agree -/

/-- C9: for the same feed, an Atom entry and an RSS item with the same title, link and native
identifier, whose dates parse to the same time, give the same post, with that title, link,
feed id, uid and date; so two documents whose entries and items correspond in this way one by
one give equal post sequences from `getAtomPosts` and `getRSSPosts`. -/
theorem atom_rss_same_posts (lib : Lib) (feed : Feed) :
    (∀ (entry : AtomEntry) (item : RSSItem) (t : Time) (posts : List NewPost),
      entry.Title = item.Title → entry.Href = item.Link → entry.ID = item.GUID →
      lib.parseRFC3339 entry.Published = some t → lib.parseRFC1123 item.PubDate = some t →
      atomLoopBody lib feed posts entry =
        posts ++ [⟨entry.Title, entry.Href, feed.ID, generatePostUID feed.ID entry.ID, ⟨t⟩⟩] ∧
      rssLoopBody lib feed posts item =
        posts ++ [⟨entry.Title, entry.Href, feed.ID, generatePostUID feed.ID entry.ID, ⟨t⟩⟩]) ∧
    (∀ (atomBody rssBody : List UInt8) (atomFeed : AtomFeed) (rssFeed : RSSFeed),
      lib.decodeAtom atomBody = .ok atomFeed → lib.decodeRSS rssBody = .ok rssFeed →
      List.Forall₂ (SameContent lib) atomFeed.Entries rssFeed.Items →
      getAtomPosts lib atomBody feed = getRSSPosts lib rssBody feed) := by
  constructor
  · intro entry item t posts hT hL hI hA hR
    simp [atomLoopBody, rssLoopBody, hA, hR, hT, hL, hI]
  · intro atomBody rssBody atomFeed rssFeed hA hR hall
    rw [getAtomPosts_ok lib atomBody feed atomFeed hA, getRSSPosts_ok lib rssBody feed rssFeed hR,
      filterMap_sameContent lib feed _ _ hall]

/-- The Atom sample and the RSS sample with the same two items give the same posts. -/
theorem atom_rss_same_posts_witness :
    (atomLoopBody sampleLib (sampleFeed 1 "https://a.example/atom") []
        ⟨"a2", "https://a.example/2", "2024-01-02T10:00:00Z", "Second"⟩ =
      [] ++ [⟨"Second", "https://a.example/2", 1, generatePostUID 1 "a2", ⟨jan2⟩⟩] ∧
     rssLoopBody sampleLib (sampleFeed 1 "https://a.example/atom") []
        ⟨"Second", "https://a.example/2", "Tue, 02 Jan 2024 10:00:00 UTC", "a2"⟩ =
      [] ++ [⟨"Second", "https://a.example/2", 1, generatePostUID 1 "a2", ⟨jan2⟩⟩]) ∧
    getAtomPosts sampleLib sampleAtomBody (sampleFeed 1 "https://a.example/atom") =
      getRSSPosts sampleLib sampleRSSItemsBody (sampleFeed 1 "https://a.example/atom") :=
  ⟨(atom_rss_same_posts sampleLib (sampleFeed 1 "https://a.example/atom")).1
      ⟨"a2", "https://a.example/2", "2024-01-02T10:00:00Z", "Second"⟩
      ⟨"Second", "https://a.example/2", "Tue, 02 Jan 2024 10:00:00 UTC", "a2"⟩
      jan2 [] rfl rfl rfl rfl rfl,
   (atom_rss_same_posts sampleLib (sampleFeed 1 "https://a.example/atom")).2
      sampleAtomBody sampleRSSItemsBody _ _ sampleLib_decodeAtom sampleLib_decodeRSS_items
      (List.Forall₂.cons ⟨rfl, rfl, rfl, jan2, rfl, rfl⟩
        (List.Forall₂.cons ⟨rfl, rfl, rfl, jan1, rfl, rfl⟩ List.Forall₂.nil))⟩

/-! ## Pagination -/

theorem Atoi_Itoa (i : Int) (hlo : minInt64 ≤ i) (hhi : i ≤ maxInt64) :
    Atoi (Itoa i) = .ok i := by
  have hr : ¬ (i < minInt64 ∨ maxInt64 < i) := by omega
  simp [Atoi, Itoa, parseSigned_formatInt, hr]

theorem wrapInt64_of_range (x : Int) (hlo : minInt64 ≤ x) (hhi : x ≤ maxInt64) :
    wrapInt64 x = x := by
  unfold minInt64 at hlo
  unfold maxInt64 at hhi
  unfold wrapInt64
  omega

theorem wrapInt64_mul (a l : Int) : wrapInt64 (wrapInt64 a * l) = wrapInt64 (a * l) := by
  unfold wrapInt64
  have h : ((a + 9223372036854775808) % 18446744073709551616 - 9223372036854775808) * l
      + 9223372036854775808
      = (a * l + 9223372036854775808)
        + 18446744073709551616 * (-((a + 9223372036854775808) / 18446744073709551616) * l) := by
    rw [Int.emod_def]
    ring
  rw [h, Int.add_mul_emod_self_left]

theorem getPaginationParams_ok (q : List (String × List String)) (defaultLimit l p : Int)
    (hl : Atoi (if queryGet q "limit" = "" then Itoa defaultLimit else queryGet q "limit")
      = .ok l)
    (hp : Atoi (if queryGet q "page" = "" then "1" else queryGet q "page") = .ok p) :
    getPaginationParams q defaultLimit = (l, wrapInt64 ((p - 1) * l), none) := by
  simp only [getPaginationParams, hl, hp, wrapInt64_mul]

theorem getPaginationParams_error (q : List (String × List String)) (defaultLimit : Int)
    (h : (∃ e, Atoi (if queryGet q "limit" = "" then Itoa defaultLimit else queryGet q "limit")
        = .error e) ∨
      (∃ e, Atoi (if queryGet q "page" = "" then "1" else queryGet q "page") = .error e)) :
    ∃ e, getPaginationParams q defaultLimit = (-1, -1, some e) := by
  rcases h with ⟨e, he⟩ | ⟨e, he⟩
  · exact ⟨e, by simp only [getPaginationParams, he]⟩
  · cases hl : Atoi (if queryGet q "limit" = "" then Itoa defaultLimit else queryGet q "limit") with
    | error e2 => exact ⟨e2, by simp only [getPaginationParams, hl]⟩
    | ok l => exact ⟨e, by simp only [getPaginationParams, hl, he]⟩

theorem Atoi_one : Atoi "1" = .ok 1 := by
  rfl

theorem wrapInt64_zero : wrapInt64 0 = 0 := by
  rfl

theorem getPaginationParams_default (q : List (String × List String)) (defaultLimit : Int)
    (hlo : minInt64 ≤ defaultLimit) (hhi : defaultLimit ≤ maxInt64)
    (hl : queryGet q "limit" = "") (hp : queryGet q "page" = "") :
    getPaginationParams q defaultLimit = (defaultLimit, 0, none) := by
  have h := getPaginationParams_ok q defaultLimit defaultLimit 1
    (by rw [if_pos hl]; exact Atoi_Itoa defaultLimit hlo hhi)
    (by rw [if_pos hp]; exact Atoi_one)
  rw [h]
  simp [wrapInt64_zero]

theorem queryGet_absent (q : List (String × List String)) (key : String)
    (h : q.lookup key = none) : queryGet q key = "" := by
  simp [queryGet, h]

theorem getPaginationParams_invalid (q : List (String × List String)) (defaultLimit : Int)
    (h : (queryGet q "limit" ≠ "" ∧ ∃ e, Atoi (queryGet q "limit") = .error e) ∨
      (queryGet q "page" ≠ "" ∧ ∃ e, Atoi (queryGet q "page") = .error e)) :
    ∃ e, getPaginationParams q defaultLimit = (-1, -1, some e) := by
  apply getPaginationParams_error
  rcases h with ⟨hne, e, he⟩ | ⟨hne, e, he⟩
  · exact Or.inl ⟨e, by rw [if_neg hne]; exact he⟩
  · exact Or.inr ⟨e, by rw [if_neg hne]; exact he⟩

/-- C10, as the code has it: when the `limit` or `page` parameter has a non-empty value
that `strconv.Atoi` rejects, `getPaginationParams` returns an error and the handler answers
with `http.Error` without querying posts; a parameter that is absent or empty takes its
default, so with both absent the limit is `defaultLimit` and the offset 0; and when both
values parse, the offset is `(page − 1) × limit` in wrapping 64-bit arithmetic, which is
`(page − 1) × limit` itself whenever that fits in 64 bits. -/
theorem pagination_params (q : List (String × List String)) (defaultLimit : Int)
    (hlo : minInt64 ≤ defaultLimit) (hhi : defaultLimit ≤ maxInt64) :
    ((queryGet q "limit" ≠ "" ∧ (∃ e, Atoi (queryGet q "limit") = .error e)) ∨
      (queryGet q "page" ≠ "" ∧ (∃ e, Atoi (queryGet q "page") = .error e)) →
      (∃ e, getPaginationParams q defaultLimit = (-1, -1, some e)) ∧
      ∀ getPosts, ∃ code, handleGetPosts q getPosts = (.httpError code, [])) ∧
    (q.lookup "limit" = none → q.lookup "page" = none →
      getPaginationParams q defaultLimit = (defaultLimit, 0, none)) ∧
    (queryGet q "limit" = "" → queryGet q "page" = "" →
      getPaginationParams q defaultLimit = (defaultLimit, 0, none)) ∧
    (∀ l p : Int,
      Atoi (if queryGet q "limit" = "" then Itoa defaultLimit else queryGet q "limit") = .ok l →
      Atoi (if queryGet q "page" = "" then "1" else queryGet q "page") = .ok p →
      getPaginationParams q defaultLimit = (l, wrapInt64 ((p - 1) * l), none) ∧
      (minInt64 ≤ (p - 1) * l → (p - 1) * l ≤ maxInt64 →
        getPaginationParams q defaultLimit = (l, (p - 1) * l, none))) := by
  refine ⟨?_, ?_, ?_, ?_⟩
  · intro h
    refine ⟨getPaginationParams_invalid q defaultLimit h, ?_⟩
    intro getPosts
    obtain ⟨e, he⟩ := getPaginationParams_invalid q 10 h
    exact ⟨500, by simp only [handleGetPosts, he]⟩
  · intro hl hp
    exact getPaginationParams_default q defaultLimit hlo hhi
      (queryGet_absent q "limit" hl) (queryGet_absent q "page" hp)
  · intro hl hp
    exact getPaginationParams_default q defaultLimit hlo hhi hl hp
  · intro l p hl hp
    have h := getPaginationParams_ok q defaultLimit l p hl hp
    refine ⟨h, ?_⟩
    intro h1 h2
    rw [h, wrapInt64_of_range _ h1 h2]

/-- The request `GET /posts?limit=abc` is rejected, and `GET /posts` takes the defaults. -/
theorem pagination_params_witness :
    ((∃ e, getPaginationParams [("limit", ["abc"])] 10 = (-1, -1, some e)) ∧
      ∀ getPosts, ∃ code,
        handleGetPosts [("limit", ["abc"])] getPosts = (.httpError code, [])) ∧
    getPaginationParams [] 10 = (10, 0, none) :=
  ⟨(pagination_params [("limit", ["abc"])] 10 (by decide) (by decide)).1
      (Or.inl ⟨by decide, .ErrSyntax, rfl⟩),
   (pagination_params [] 10 (by decide) (by decide)).2.1 rfl rfl⟩

/-- C10, as stated, fails in each of its parts: `GET /posts?limit=` has a `limit` parameter
that is present and is not a valid integer, and `getPaginationParams` returns no error;
`GET /posts?limit=abc` is answered with status 500, which is not a client-error status; and
for `limit=4`, `page=4611686018427387905` the offset is 0 while `(page − 1) × limit` is
`2^64`. -/
theorem pagination_claim_fails :
    (queryGet [("limit", [""])] "limit" = "" ∧ Atoi "" = .error .ErrSyntax ∧
      getPaginationParams [("limit", [""])] 10 = (10, 0, none)) ∧
    (∀ getPosts, (handleGetPosts [("limit", ["abc"])] getPosts).1.statusCode = 500) ∧
    (getPaginationParams [("limit", ["4"]), ("page", ["4611686018427387905"])] 10
        = (4, 0, none) ∧
      ((4611686018427387905 : Int) - 1) * 4 = 18446744073709551616) := by
  refine ⟨⟨rfl, rfl, ?_⟩, ?_, ?_, by decide⟩
  · exact getPaginationParams_default _ 10 (by decide) (by decide) rfl rfl
  · intro getPosts
    obtain ⟨e, he⟩ := getPaginationParams_invalid [("limit", ["abc"])] 10
      (Or.inl ⟨by decide, .ErrSyntax, rfl⟩)
    simp only [handleGetPosts, he, Response.statusCode]
  · have h := getPaginationParams_ok [("limit", ["4"]), ("page", ["4611686018427387905"])] 10
      4 4611686018427387905 rfl rfl
    rw [h]
    rfl

end RssReader
